import Mathlib

/-!
Shallow embedding of the pick-and-place robot-arm sorting system
(`color_detection.py`, `object_tracker.py`, `robot_arm_simulator.py`,
`main.py`) together with proofs about its specification.

Conventions of the embedding:
* Python dicts holding fixed record shapes become Lean structures.
* Machine integers are modelled as `Int`/`Nat` (no overflow occurs in the
  program's ranges); floating-point quantities that are only ever compared
  (contour areas, solidities) are modelled as exact rationals `ℚ`.
* `time.time()` is modelled by threading an explicit `now : Nat` argument
  into every operation that reads the clock.
* Euclidean pixel distances (`math.sqrt(dx**2 + dy**2) <= r`) are compared
  via the exact equivalent `0 ≤ r ∧ dx² + dy² ≤ r²`.
-/

namespace PickPlace

/-- Color labels of detected objects.  `detect_objects` only ever emits the
keys of `hsv_ranges`, i.e. `"Red"`, `"Green"`, `"Blue"`. -/
inductive Color where
  | red
  | green
  | blue
deriving DecidableEq, Repr

/-- A detected object, i.e. the dict built by
`ColorDetector.process_contours`. -/
structure Obj where
  pixel_pos : Int × Int
  robot_pos : Int × Int × Int
  size : Int × Int
  area : ℚ
  color : Color
  bbox : Int × Int × Int × Int
  id : String
deriving DecidableEq, Repr

/-- One entry of the `mission` list built by `calculate_pick_mission`:
either a `{"type": "move", ...}` or a `{"type": "gripper", ...}` dict. -/
inductive Step where
  | move (target : Int × Int × Int) (description : String)
  | gripper (action : String) (description : String)
deriving DecidableEq, Repr

/-- The `current_mission` dict of `RobotArmSimulator`. -/
structure Mission where
  object_pos : Int × Int × Int
  object_color : Color
  start_time : Nat
deriving DecidableEq, Repr

/-- An entry of `pick_history`, appended by `complete_mission`. -/
structure HistEntry where
  color : Color
  position : Int × Int × Int
  timestamp : Nat
  drop_location : Int × Int × Int
  success : Bool
deriving DecidableEq, Repr

/-- The mutable state of `RobotArmSimulator`; the `metrics` dict is
flattened into one field per key. -/
structure RobotState where
  current_position : Int × Int × Int
  gripper_state : String
  is_moving : Bool
  current_mission : Option Mission
  mission_progress : Int
  mission_steps : List Step
  batch_mode : Bool
  batch_queue : List Obj
  pick_history : List HistEntry
  total_picks : Nat
  successful_picks : Nat
  failed_picks : Nat
  average_pick_time : Int
  batch_completions : Nat
deriving DecidableEq, Repr

/-- The `drop_locations` table of `RobotArmSimulator.__init__`. -/
def drop_locations : Color → Int × Int × Int
  | .red => (100, 350, 50)
  | .green => (300, 350, 50)
  | .blue => (500, 350, 50)

/-- `RobotArmSimulator.__init__`. -/
def RobotState.init : RobotState where
  current_position := (300, 200, 100)
  gripper_state := "open"
  is_moving := false
  current_mission := none
  mission_progress := 0
  mission_steps := []
  batch_mode := false
  batch_queue := []
  pick_history := []
  total_picks := 0
  successful_picks := 0
  failed_picks := 0
  average_pick_time := 0
  batch_completions := 0

/-- `RobotArmSimulator.calculate_pick_mission`. -/
def calculate_pick_mission (s : RobotState) (object_pos : Int × Int × Int)
    (object_color : Color) : List Step :=
  let (object_x, object_y, object_z) := object_pos
  let (drop_x, drop_y, drop_z) := drop_locations object_color
  [ .move (object_x, object_y, object_z + 50) "Approach object",
    .move (object_x, object_y, object_z) "Lower to object",
    .gripper "close" "Pick up object",
    .move (object_x, object_y, object_z + 80) "Lift object",
    .move (drop_x, drop_y, object_z + 80) "Move above drop zone",
    .move (drop_x, drop_y, drop_z) "Lower to drop height",
    .gripper "open" "Release object",
    .move (drop_x, drop_y, drop_z + 80) "Lift from drop zone",
    .move s.current_position "Return to home" ]

/-- `RobotArmSimulator.start_next_mission`: pop the batch-queue head and
install it as the current mission.  (Only ever called by `complete_mission`
with a non-empty queue; on the empty queue it is the identity.) -/
def start_next_mission (now : Nat) (s : RobotState) : RobotState :=
  match s.batch_queue with
  | [] => s
  | next_mission :: rest =>
    { s with
      batch_queue := rest
      current_mission := some
        { object_pos := next_mission.robot_pos
          object_color := next_mission.color
          start_time := now }
      mission_steps := calculate_pick_mission s next_mission.robot_pos next_mission.color }

/-- `RobotArmSimulator.complete_mission`.  (Only ever called by
`update_mission` with `current_mission` set; when it is `None` the Python
code would fault, modelled here as the identity.) -/
def complete_mission (now : Nat) (s : RobotState) : RobotState :=
  match s.current_mission with
  | none => s
  | some m =>
    let s1 : RobotState :=
      { s with
        mission_progress := 0
        successful_picks := s.successful_picks + 1
        total_picks := s.total_picks + 1
        pick_history := s.pick_history ++
          [{ color := m.object_color
             position := m.object_pos
             timestamp := now
             drop_location := drop_locations m.object_color
             success := true }] }
    if s1.batch_queue.isEmpty then
      if s1.batch_mode then
        { s1 with
          batch_completions := s1.batch_completions + 1
          current_mission := none
          is_moving := false
          batch_mode := false }
      else
        { s1 with current_mission := none, is_moving := false, batch_mode := false }
    else
      start_next_mission now s1

/-- `RobotArmSimulator.update_mission`: one tick of mission progress. -/
def update_mission (now : Nat) (s : RobotState) : RobotState :=
  if s.is_moving && s.current_mission.isSome then
    let s1 := { s with mission_progress := s.mission_progress + 2 }
    if s1.mission_progress ≥ 100 then complete_mission now s1 else s1
  else s

/-- `RobotArmSimulator.start_mission`. -/
def start_mission (now : Nat) (object_pos : Int × Int × Int) (object_color : Color)
    (s : RobotState) : RobotState :=
  if s.is_moving then s
  else
    { s with
      current_mission := some
        { object_pos := object_pos, object_color := object_color, start_time := now }
      mission_steps := calculate_pick_mission s object_pos object_color
      is_moving := true
      mission_progress := 0 }

/-- `RobotArmSimulator.start_batch_pick`. -/
def start_batch_pick (now : Nat) (objects_list : List Obj) (s : RobotState) : RobotState :=
  if !s.is_moving && !objects_list.isEmpty then
    match objects_list with
    | [] => s
    | first_object :: rest =>
      start_mission now first_object.robot_pos first_object.color
        { s with batch_mode := true, batch_queue := rest }
  else s

/-- `RobotArmSimulator.start_color_batch_pick`. -/
def start_color_batch_pick (now : Nat) (objects_by_color : List Obj) (color : Color)
    (s : RobotState) : RobotState :=
  let color_objects := objects_by_color.filter (fun obj => obj.color = color)
  if !color_objects.isEmpty then start_batch_pick now color_objects s else s

/-- The `color_order` dict of `start_all_objects_batch`;
`color_order.get(x['color'], 3)` — the default `3` branch is dead because
`Color` has exactly the three dict keys. -/
def color_order : Color → Nat
  | .red => 0
  | .green => 1
  | .blue => 2

/-- Stable insertion into a key-sorted list (an element is placed in front
of the first element with a key that is not smaller). -/
def insertByKey {α β : Type} [LinearOrder β] (key : α → β) (a : α) : List α → List α
  | [] => [a]
  | b :: l => if key a ≤ key b then a :: b :: l else b :: insertByKey key a l

/-- Stable insertion sort by a key — the model of Python's stable
`sorted(l, key=...)`. -/
def sortByKey {α β : Type} [LinearOrder β] (key : α → β) : List α → List α
  | [] => []
  | a :: l => insertByKey key a (sortByKey key l)

/-- `RobotArmSimulator.start_all_objects_batch`. -/
def start_all_objects_batch (now : Nat) (all_objects : List Obj) (s : RobotState) : RobotState :=
  if !all_objects.isEmpty then
    let sorted_objects := sortByKey (fun x => color_order x.color) all_objects
    start_batch_pick now sorted_objects s
  else s

/-- Iterate `update_mission`; `f k` is the value of `time.time()` at the
`k`-th call. -/
def runTicks (f : Nat → Nat) : Nat → RobotState → RobotState
  | 0, s => s
  | k + 1, s => update_mission (f k) (runTicks f k s)

/-! ### Basic tick lemmas -/

theorem update_mission_no_complete (now : Nat) (s : RobotState)
    (hmov : s.is_moving = true) (hmis : s.current_mission.isSome = true)
    (hlt : s.mission_progress + 2 < 100) :
    update_mission now s = { s with mission_progress := s.mission_progress + 2 } := by
  simp only [update_mission, hmov, hmis, Bool.and_self, if_pos, if_true]
  rw [if_neg]
  simp only [not_le]
  exact hlt

theorem update_mission_complete (now : Nat) (s : RobotState)
    (hmov : s.is_moving = true) (hmis : s.current_mission.isSome = true)
    (hge : s.mission_progress + 2 ≥ 100) :
    update_mission now s = complete_mission now { s with mission_progress := s.mission_progress + 2 } := by
  simp only [update_mission, hmov, hmis, Bool.and_self, if_true]
  rw [if_pos]
  exact hge

theorem runTicks_below_fifty (f : Nat → Nat) (s : RobotState) (m : Mission)
    (hmov : s.is_moving = true) (hmis : s.current_mission = some m)
    (hpr : s.mission_progress = 0) :
    ∀ k, k ≤ 49 → runTicks f k s = { s with mission_progress := 2 * k } := by
  intro k hk
  induction k with
  | zero =>
    show s = _
    rw [show (2 * ((0 : Nat) : Int)) = s.mission_progress by rw [hpr]; norm_num]
  | succ n ih =>
    have hn : n ≤ 49 := Nat.le_of_succ_le hk
    rw [runTicks, ih hn,
      update_mission_no_complete (f n) { s with mission_progress := 2 * (n : Int) } hmov
        (by show s.current_mission.isSome = true; rw [hmis]; rfl)
        (by show 2 * (n : Int) + 2 < 100; omega)]
    show ({ s with mission_progress := 2 * (n : Int) + 2 } : RobotState) = _
    rw [show (2 * (((n + 1 : Nat)) : Int)) = 2 * (n : Int) + 2 by push_cast; ring]

theorem runTicks_fifty (f : Nat → Nat) (s : RobotState) (m : Mission)
    (hmov : s.is_moving = true) (hmis : s.current_mission = some m)
    (hpr : s.mission_progress = 0) :
    runTicks f 50 s = complete_mission (f 49) { s with mission_progress := 100 } := by
  have h49 := runTicks_below_fifty f s m hmov hmis hpr 49 (le_refl 49)
  show update_mission (f 49) (runTicks f 49 s) = _
  rw [h49,
    update_mission_complete (f 49) { s with mission_progress := 2 * ((49 : Nat) : Int) } hmov
      (by show s.current_mission.isSome = true; rw [hmis]; rfl)
      (by show 2 * ((49 : Nat) : Int) + 2 ≥ 100; norm_num)]
  show complete_mission (f 49) { s with mission_progress := 2 * ((49 : Nat) : Int) + 2 } = _
  rw [show (2 * ((49 : Nat) : Int) + 2) = 100 by norm_num]

/-- `runTicks` splits into two runs with a shifted time function. -/
theorem runTicks_add (f : Nat → Nat) (a b : Nat) (s : RobotState) :
    runTicks f (a + b) s = runTicks (fun i => f (a + i)) b (runTicks f a s) := by
  induction b with
  | zero => rfl
  | succ n ih => rw [← Nat.add_assoc, runTicks, runTicks, ih]

/-! ### Claim theorems: mission lifecycle -/

/-- C1: for every position `p` and color `c`, `start_mission` from an Idle
controller (empty batch queue, batch mode off) moves to Executing with the
fixed 9-step plan (approach, descend, close gripper, lift, move above the
color's drop zone, descend to drop height, open gripper, lift from drop
zone, return home) and progress 0; each of the first 49 `update_mission`
ticks adds 2 to progress without completing, and the 50-th tick brings
progress to 100 and triggers completion exactly once, appending exactly one
history entry and returning the controller to Idle. -/
theorem mission_lifecycle_nine_steps_fifty_ticks (now : Nat) (f : Nat → Nat)
    (px py pz : Int) (c : Color) (s : RobotState)
    (hIdle : s.is_moving = false) (hq : s.batch_queue = []) (hb : s.batch_mode = false) :
    (start_mission now (px, py, pz) c s).is_moving = true ∧
    (start_mission now (px, py, pz) c s).mission_progress = 0 ∧
    (start_mission now (px, py, pz) c s).mission_steps =
      [ .move (px, py, pz + 50) "Approach object",
        .move (px, py, pz) "Lower to object",
        .gripper "close" "Pick up object",
        .move (px, py, pz + 80) "Lift object",
        .move ((drop_locations c).1, (drop_locations c).2.1, pz + 80) "Move above drop zone",
        .move ((drop_locations c).1, (drop_locations c).2.1, (drop_locations c).2.2) "Lower to drop height",
        .gripper "open" "Release object",
        .move ((drop_locations c).1, (drop_locations c).2.1, (drop_locations c).2.2 + 80) "Lift from drop zone",
        .move s.current_position "Return to home" ] ∧
    (∀ k, k < 50 →
      (runTicks f k (start_mission now (px, py, pz) c s)).is_moving = true ∧
      (runTicks f k (start_mission now (px, py, pz) c s)).mission_progress = 2 * k ∧
      (runTicks f k (start_mission now (px, py, pz) c s)).pick_history = s.pick_history) ∧
    (runTicks f 50 (start_mission now (px, py, pz) c s)).is_moving = false ∧
    (runTicks f 50 (start_mission now (px, py, pz) c s)).current_mission = none ∧
    (runTicks f 50 (start_mission now (px, py, pz) c s)).pick_history =
      s.pick_history ++
        [{ color := c, position := (px, py, pz), timestamp := f 49,
           drop_location := drop_locations c, success := true }] := by
  have hs1 : start_mission now (px, py, pz) c s =
      { s with
        current_mission := some { object_pos := (px, py, pz), object_color := c, start_time := now }
        mission_steps := calculate_pick_mission s (px, py, pz) c
        is_moving := true
        mission_progress := 0 } := by
    simp [start_mission, hIdle]
  rw [hs1]
  refine ⟨rfl, rfl, ?_, ?_, ?_, ?_, ?_⟩
  · show calculate_pick_mission s (px, py, pz) c = _
    cases c <;> rfl
  · intro k hk
    rw [runTicks_below_fifty f _ _ rfl rfl rfl k (Nat.lt_succ_iff.mp hk)]
    exact ⟨rfl, rfl, rfl⟩
  all_goals
    rw [runTicks_fifty f _ _ rfl rfl rfl]
    simp [complete_mission, start_next_mission, hq, hb]

/-- Witness for C1 at a concrete input: start a mission for a Red object at
(10, 20, 30) from the freshly-initialized controller and run 50 ticks. -/
theorem mission_lifecycle_witness :
    RobotState.init.is_moving = false ∧
    (runTicks (fun _ => 0) 50 (start_mission 0 (10, 20, 30) .red RobotState.init)).is_moving = false ∧
    (runTicks (fun _ => 0) 50 (start_mission 0 (10, 20, 30) .red RobotState.init)).pick_history =
      [{ color := .red, position := (10, 20, 30), timestamp := 0,
         drop_location := drop_locations .red, success := true }] := by
  have h := mission_lifecycle_nine_steps_fifty_ticks 0 (fun _ => 0) 10 20 30 .red
    RobotState.init rfl rfl rfl
  exact ⟨rfl, h.2.2.2.2.1, by simpa using h.2.2.2.2.2.2⟩

/-- C7: while the controller is Executing (`is_moving` true), `start_mission`
is a complete no-op: the state after the call is exactly the state before. -/
theorem start_mission_noop_while_executing (now : Nat) (object_pos : Int × Int × Int)
    (object_color : Color) (s : RobotState) (h : s.is_moving = true) :
    start_mission now object_pos object_color s = s := by
  simp [start_mission, h]

/-- Witness for C7 at a concrete input: starting a Blue mission while a Red
mission is executing changes nothing. -/
theorem start_mission_noop_witness :
    (start_mission 0 (10, 20, 30) .red RobotState.init).is_moving = true ∧
    start_mission 1 (40, 50, 60) .blue (start_mission 0 (10, 20, 30) .red RobotState.init) =
      start_mission 0 (10, 20, 30) .red RobotState.init :=
  ⟨rfl, start_mission_noop_while_executing 1 (40, 50, 60) .blue _ rfl⟩

/-! ### Stable-sort lemmas for the batch ordering -/

theorem insertByKey_eq_cons {α β : Type} [LinearOrder β] (key : α → β) (a : α) (l : List α)
    (h : ∀ x ∈ l, key a ≤ key x) : insertByKey key a l = a :: l := by
  cases l with
  | nil => rfl
  | cons b t => rw [insertByKey, if_pos (h b (List.mem_cons_self b t))]

theorem insertByKey_append {α β : Type} [LinearOrder β] (key : α → β) (a : α) (xs ys : List α)
    (h : ∀ x ∈ xs, key x < key a) :
    insertByKey key a (xs ++ ys) = xs ++ insertByKey key a ys := by
  induction xs with
  | nil => rfl
  | cons b t ih =>
    rw [List.cons_append, insertByKey,
      if_neg (not_le.mpr (h b (List.mem_cons_self b t))), List.cons_append,
      ih (fun x hx => h x (List.mem_cons_of_mem b hx))]

theorem length_insertByKey {α β : Type} [LinearOrder β] (key : α → β) (a : α) (l : List α) :
    (insertByKey key a l).length = l.length + 1 := by
  induction l with
  | nil => rfl
  | cons b t ih =>
    rw [insertByKey]
    by_cases h : key a ≤ key b
    · rw [if_pos h]; rfl
    · rw [if_neg h, List.length_cons, ih, List.length_cons]

theorem length_sortByKey {α β : Type} [LinearOrder β] (key : α → β) (l : List α) :
    (sortByKey key l).length = l.length := by
  induction l with
  | nil => rfl
  | cons a t ih => rw [sortByKey, length_insertByKey, ih, List.length_cons]

/-- `sorted(objects, key=lambda x: color_order.get(x['color'], 3))` puts all
Red objects first (in input order), then all Green, then all Blue. -/
theorem sortByKey_color_partition (objs : List Obj) :
    sortByKey (fun x => color_order x.color) objs =
      objs.filter (fun o => o.color = .red) ++ objs.filter (fun o => o.color = .green) ++
        objs.filter (fun o => o.color = .blue) := by
  induction objs with
  | nil => rfl
  | cons a l ih =>
    have hred : ∀ x ∈ l.filter (fun o => o.color = Color.red), color_order x.color = 0 := by
      intro x hx
      have hc : x.color = Color.red := by simpa using (List.mem_filter.mp hx).2
      simp [hc, color_order]
    have hgreen : ∀ x ∈ l.filter (fun o => o.color = Color.green), color_order x.color = 1 := by
      intro x hx
      have hc : x.color = Color.green := by simpa using (List.mem_filter.mp hx).2
      simp [hc, color_order]
    have hblue : ∀ x ∈ l.filter (fun o => o.color = Color.blue), color_order x.color = 2 := by
      intro x hx
      have hc : x.color = Color.blue := by simpa using (List.mem_filter.mp hx).2
      simp [hc, color_order]
    rw [sortByKey, ih]
    cases ha : a.color with
    | red =>
      rw [insertByKey_eq_cons _ _ _ (fun x _ => by simp [ha, color_order])]
      simp [List.filter_cons, ha]
    | green =>
      rw [List.append_assoc,
        insertByKey_append _ _ _ _
          (fun x hx => by rw [hred x hx]; simp [ha, color_order]),
        insertByKey_eq_cons _ _ _ (by
          intro x hx
          rcases List.mem_append.mp hx with hx | hx
          · rw [hgreen x hx]; simp [ha, color_order]
          · rw [hblue x hx]; simp [ha, color_order])]
      simp [List.filter_cons, ha, List.append_assoc]
    | blue =>
      rw [insertByKey_append _ _ _ _
          (fun x hx => by
            rcases List.mem_append.mp hx with hx | hx
            · rw [hred x hx]; simp [ha, color_order]
            · rw [hgreen x hx]; simp [ha, color_order]),
        insertByKey_eq_cons _ _ _ (fun x hx => by rw [hblue x hx]; simp [ha, color_order])]
      simp [List.filter_cons, ha]

/-! ### Batch execution -/

/-- The observable content of a history entry, ignoring the wall-clock
timestamp. -/
def histView (e : HistEntry) : Color × (Int × Int × Int) × (Int × Int × Int) × Bool :=
  (e.color, e.position, e.drop_location, e.success)

/-- The history entry a completed mission for `m` produces, up to timestamp. -/
def missionHistView (m : Mission) : Color × (Int × Int × Int) × (Int × Int × Int) × Bool :=
  (m.object_color, m.object_pos, drop_locations m.object_color, true)

/-- The history entry a completed pick of object `o` produces, up to
timestamp. -/
def objHistView (o : Obj) : Color × (Int × Int × Int) × (Int × Int × Int) × Bool :=
  (o.color, o.robot_pos, drop_locations o.color, true)

/-- Running `50 * (|queue| + 1)` ticks from an executing mission with batch
mode on consumes the queue strictly FIFO, records one history entry per
mission in order, increments `batch_completions` exactly once at the end,
and returns to Idle. -/
theorem batch_run (q : List Obj) : ∀ (f : Nat → Nat) (s : RobotState) (m : Mission),
    s.is_moving = true → s.current_mission = some m → s.mission_progress = 0 →
    s.batch_queue = q → s.batch_mode = true →
    (runTicks f (50 * (q.length + 1)) s).is_moving = false ∧
    (runTicks f (50 * (q.length + 1)) s).batch_mode = false ∧
    (runTicks f (50 * (q.length + 1)) s).batch_queue = [] ∧
    (runTicks f (50 * (q.length + 1)) s).current_mission = none ∧
    (runTicks f (50 * (q.length + 1)) s).batch_completions = s.batch_completions + 1 ∧
    (runTicks f (50 * (q.length + 1)) s).pick_history.map histView =
      s.pick_history.map histView ++ missionHistView m :: q.map objHistView := by
  induction q with
  | nil =>
    intro f s m hmov hmis hpr hq hbm
    rw [show 50 * (([] : List Obj).length + 1) = 50 from rfl,
      runTicks_fifty f s m hmov hmis hpr]
    simp [complete_mission, hmis, hq, hbm, histView, missionHistView]
  | cons x rest ih =>
    intro f s m hmov hmis hpr hq hbm
    have hsplit : 50 * ((x :: rest).length + 1) = 50 + 50 * (rest.length + 1) := by
      simp only [List.length_cons]
      ring
    rw [hsplit, runTicks_add, runTicks_fifty f s m hmov hmis hpr]
    have e1 : (complete_mission (f 49) { s with mission_progress := 100 }).is_moving = true := by
      simp [complete_mission, hmis, hq, start_next_mission, hmov]
    have e2 : (complete_mission (f 49) { s with mission_progress := 100 }).current_mission =
        some { object_pos := x.robot_pos, object_color := x.color, start_time := f 49 } := by
      simp [complete_mission, hmis, hq, start_next_mission]
    have e3 : (complete_mission (f 49) { s with mission_progress := 100 }).mission_progress = 0 := by
      simp [complete_mission, hmis, hq, start_next_mission]
    have e4 : (complete_mission (f 49) { s with mission_progress := 100 }).batch_queue = rest := by
      simp [complete_mission, hmis, hq, start_next_mission]
    have e5 : (complete_mission (f 49) { s with mission_progress := 100 }).batch_mode = true := by
      simp [complete_mission, hmis, hq, start_next_mission, hbm]
    have e6 : (complete_mission (f 49) { s with mission_progress := 100 }).batch_completions =
        s.batch_completions := by
      simp [complete_mission, hmis, hq, start_next_mission]
    have e7 : (complete_mission (f 49) { s with mission_progress := 100 }).pick_history =
        s.pick_history ++
          [{ color := m.object_color, position := m.object_pos, timestamp := f 49,
             drop_location := drop_locations m.object_color, success := true }] := by
      simp [complete_mission, hmis, hq, start_next_mission]
    obtain ⟨g1, g2, g3, g4, g5, g6⟩ :=
      ih (fun i => f (50 + i)) (complete_mission (f 49) { s with mission_progress := 100 })
        { object_pos := x.robot_pos, object_color := x.color, start_time := f 49 }
        e1 e2 e3 e4 e5
    refine ⟨g1, g2, g3, g4, ?_, ?_⟩
    · rw [g5, e6]
    · rw [g6, e7]
      simp [histView, missionHistView, objHistView]

/-- C5: `start_all_objects_batch` from Idle enqueues the detections sorted
by the fixed color priority Red < Green < Blue, stably (input order kept
within one color); the first sorted object becomes the current mission and
the rest the queue; running the whole batch (50 ticks per mission) consumes
the queue strictly FIFO, appends one history entry per object in sorted
order, increments `batch_completions` by exactly 1 and clears the
batch-mode flag. -/
theorem batch_priority_order_fifo_completion (now : Nat) (f : Nat → Nat)
    (objs : List Obj) (s : RobotState)
    (hIdle : s.is_moving = false) (hne : objs ≠ []) :
    sortByKey (fun x => color_order x.color) objs =
      objs.filter (fun o => o.color = .red) ++ objs.filter (fun o => o.color = .green) ++
        objs.filter (fun o => o.color = .blue) ∧
    (∃ first rest, sortByKey (fun x => color_order x.color) objs = first :: rest ∧
      (start_all_objects_batch now objs s).is_moving = true ∧
      (start_all_objects_batch now objs s).batch_mode = true ∧
      (start_all_objects_batch now objs s).current_mission =
        some { object_pos := first.robot_pos, object_color := first.color, start_time := now } ∧
      (start_all_objects_batch now objs s).batch_queue = rest) ∧
    (runTicks f (50 * objs.length) (start_all_objects_batch now objs s)).is_moving = false ∧
    (runTicks f (50 * objs.length) (start_all_objects_batch now objs s)).batch_mode = false ∧
    (runTicks f (50 * objs.length) (start_all_objects_batch now objs s)).batch_queue = [] ∧
    (runTicks f (50 * objs.length) (start_all_objects_batch now objs s)).batch_completions =
      s.batch_completions + 1 ∧
    (runTicks f (50 * objs.length) (start_all_objects_batch now objs s)).pick_history.map histView =
      s.pick_history.map histView ++
        (sortByKey (fun x => color_order x.color) objs).map objHistView := by
  have hlen : (sortByKey (fun x => color_order x.color) objs).length = objs.length :=
    length_sortByKey _ objs
  obtain ⟨first, rest, hsort⟩ :
      ∃ a l, sortByKey (fun x => color_order x.color) objs = a :: l := by
    cases h : sortByKey (fun x => color_order x.color) objs with
    | nil =>
      rw [h, List.length_nil] at hlen
      exact absurd (List.length_eq_zero.mp hlen.symm) hne
    | cons a l => exact ⟨a, l, rfl⟩
  have hstart : start_all_objects_batch now objs s =
      start_mission now first.robot_pos first.color
        { s with batch_mode := true, batch_queue := rest } := by
    rw [start_all_objects_batch, if_pos (by simp [List.isEmpty_iff, hne]), hsort,
      start_batch_pick, if_pos (by simp [hIdle])]
  have hs1 : start_all_objects_batch now objs s =
      { s with
        batch_mode := true
        batch_queue := rest
        current_mission := some
          { object_pos := first.robot_pos, object_color := first.color, start_time := now }
        mission_steps :=
          calculate_pick_mission { s with batch_mode := true, batch_queue := rest }
            first.robot_pos first.color
        is_moving := true
        mission_progress := 0 } := by
    rw [hstart, start_mission, if_neg (by simp [hIdle])]
  have hlen2 : 50 * objs.length = 50 * (rest.length + 1) := by
    rw [← hlen, hsort, List.length_cons]
  obtain ⟨g1, g2, g3, g4, g5, g6⟩ :=
    batch_run rest f (start_all_objects_batch now objs s)
      { object_pos := first.robot_pos, object_color := first.color, start_time := now }
      (by rw [hs1]) (by rw [hs1]) (by rw [hs1]) (by rw [hs1]) (by rw [hs1])
  rw [hlen2]
  refine ⟨sortByKey_color_partition objs,
    ⟨first, rest, hsort, by rw [hs1], by rw [hs1], by rw [hs1], by rw [hs1]⟩,
    g1, g2, g3, ?_, ?_⟩
  · rw [g5, hs1]
  · rw [g6, hs1, hsort]
    simp [missionHistView, objHistView]

/-- Witness for C5 at a concrete input: a Blue, a Red and a Green detection
fed to `start_all_objects_batch` in that (unsorted) order. -/
theorem batch_priority_witness :
    ([{ pixel_pos := (10, 10), robot_pos := (10, 10, 20), size := (5, 5), area := 100,
        color := .blue, bbox := (0, 0, 5, 5), id := "Blue_10_10" },
      { pixel_pos := (50, 10), robot_pos := (50, 10, 20), size := (5, 5), area := 100,
        color := .red, bbox := (45, 0, 5, 5), id := "Red_50_10" },
      { pixel_pos := (90, 10), robot_pos := (90, 10, 20), size := (5, 5), area := 100,
        color := .green, bbox := (85, 0, 5, 5), id := "Green_90_10" }] : List Obj) ≠ [] ∧
    RobotState.init.is_moving = false ∧
    sortByKey (fun x : Obj => color_order x.color)
      [{ pixel_pos := (10, 10), robot_pos := (10, 10, 20), size := (5, 5), area := 100,
         color := .blue, bbox := (0, 0, 5, 5), id := "Blue_10_10" },
       { pixel_pos := (50, 10), robot_pos := (50, 10, 20), size := (5, 5), area := 100,
         color := .red, bbox := (45, 0, 5, 5), id := "Red_50_10" },
       { pixel_pos := (90, 10), robot_pos := (90, 10, 20), size := (5, 5), area := 100,
         color := .green, bbox := (85, 0, 5, 5), id := "Green_90_10" }] =
      [{ pixel_pos := (50, 10), robot_pos := (50, 10, 20), size := (5, 5), area := 100,
         color := .red, bbox := (45, 0, 5, 5), id := "Red_50_10" },
       { pixel_pos := (90, 10), robot_pos := (90, 10, 20), size := (5, 5), area := 100,
         color := .green, bbox := (85, 0, 5, 5), id := "Green_90_10" },
       { pixel_pos := (10, 10), robot_pos := (10, 10, 20), size := (5, 5), area := 100,
         color := .blue, bbox := (0, 0, 5, 5), id := "Blue_10_10" }] ∧
    (runTicks (fun _ => 0) (50 * 3)
        (start_all_objects_batch 0
          [{ pixel_pos := (10, 10), robot_pos := (10, 10, 20), size := (5, 5), area := 100,
             color := .blue, bbox := (0, 0, 5, 5), id := "Blue_10_10" },
           { pixel_pos := (50, 10), robot_pos := (50, 10, 20), size := (5, 5), area := 100,
             color := .red, bbox := (45, 0, 5, 5), id := "Red_50_10" },
           { pixel_pos := (90, 10), robot_pos := (90, 10, 20), size := (5, 5), area := 100,
             color := .green, bbox := (85, 0, 5, 5), id := "Green_90_10" }]
          RobotState.init)).batch_completions = RobotState.init.batch_completions + 1 := by
  have h := batch_priority_order_fifo_completion 0 (fun _ => 0)
    [{ pixel_pos := (10, 10), robot_pos := (10, 10, 20), size := (5, 5), area := 100,
       color := .blue, bbox := (0, 0, 5, 5), id := "Blue_10_10" },
     { pixel_pos := (50, 10), robot_pos := (50, 10, 20), size := (5, 5), area := 100,
       color := .red, bbox := (45, 0, 5, 5), id := "Red_50_10" },
     { pixel_pos := (90, 10), robot_pos := (90, 10, 20), size := (5, 5), area := 100,
       color := .green, bbox := (85, 0, 5, 5), id := "Green_90_10" }]
    RobotState.init rfl (by decide)
  exact ⟨by decide, rfl, by decide, h.2.2.2.2.2.1⟩

/-! ### Reachable controller states and the metrics/history invariant -/

/-- The public operations of `RobotArmSimulator` invoked by `main.py`. -/
inductive Op where
  | startMission (now : Nat) (object_pos : Int × Int × Int) (object_color : Color)
  | startBatchPick (now : Nat) (objects_list : List Obj)
  | startColorBatchPick (now : Nat) (objects_by_color : List Obj) (color : Color)
  | startAllObjectsBatch (now : Nat) (all_objects : List Obj)
  | updateMission (now : Nat)

def applyOp : Op → RobotState → RobotState
  | .startMission now p c, s => start_mission now p c s
  | .startBatchPick now objs, s => start_batch_pick now objs s
  | .startColorBatchPick now objs c, s => start_color_batch_pick now objs c s
  | .startAllObjectsBatch now objs, s => start_all_objects_batch now objs s
  | .updateMission now, s => update_mission now s

/-- Controller states reachable from `__init__` through the public
operations. -/
inductive Reachable : RobotState → Prop
  | init : Reachable RobotState.init
  | step {s : RobotState} (o : Op) : Reachable s → Reachable (applyOp o s)

theorem start_next_mission_metrics (now : Nat) (s : RobotState) :
    (start_next_mission now s).pick_history = s.pick_history ∧
    (start_next_mission now s).total_picks = s.total_picks ∧
    (start_next_mission now s).successful_picks = s.successful_picks ∧
    (start_next_mission now s).failed_picks = s.failed_picks ∧
    (start_next_mission now s).batch_completions = s.batch_completions := by
  cases h : s.batch_queue <;> simp [start_next_mission, h]

/-- `complete_mission` appends only successful entries and bumps both pick
counters by exactly the number of appended entries. -/
theorem complete_mission_mono (now : Nat) (s : RobotState) :
    ∃ t, (complete_mission now s).pick_history = s.pick_history ++ t ∧
      (complete_mission now s).total_picks = s.total_picks + t.length ∧
      (complete_mission now s).successful_picks = s.successful_picks + t.length ∧
      (∀ e ∈ t, e.success = true) ∧
      (complete_mission now s).failed_picks = s.failed_picks ∧
      s.batch_completions ≤ (complete_mission now s).batch_completions := by
  cases hm : s.current_mission with
  | none => exact ⟨[], by simp [complete_mission, hm]⟩
  | some m =>
    refine ⟨[{ color := m.object_color, position := m.object_pos, timestamp := now,
               drop_location := drop_locations m.object_color, success := true }], ?_⟩
    cases hq : s.batch_queue with
    | nil =>
      by_cases hb : s.batch_mode = true
      · simp [complete_mission, hm, hq, hb, start_next_mission]
      · simp at hb
        simp [complete_mission, hm, hq, hb, start_next_mission]
    | cons x rest =>
      simp [complete_mission, hm, hq, start_next_mission]

/-- No public operation shrinks the history or decreases a counter; the
history only ever grows by successful entries matched by the counters. -/
theorem applyOp_mono (o : Op) (s : RobotState) :
    ∃ t, (applyOp o s).pick_history = s.pick_history ++ t ∧
      (applyOp o s).total_picks = s.total_picks + t.length ∧
      (applyOp o s).successful_picks = s.successful_picks + t.length ∧
      (∀ e ∈ t, e.success = true) ∧
      (applyOp o s).failed_picks = s.failed_picks ∧
      s.batch_completions ≤ (applyOp o s).batch_completions := by
  have key : ∀ (u v : RobotState),
      v.pick_history = u.pick_history → v.total_picks = u.total_picks →
      v.successful_picks = u.successful_picks → v.failed_picks = u.failed_picks →
      v.batch_completions = u.batch_completions →
      ∃ t, v.pick_history = u.pick_history ++ t ∧
        v.total_picks = u.total_picks + t.length ∧
        v.successful_picks = u.successful_picks + t.length ∧
        (∀ e ∈ t, e.success = true) ∧
        v.failed_picks = u.failed_picks ∧
        u.batch_completions ≤ v.batch_completions := by
    intro u v h1 h2 h3 h4 h5
    refine ⟨[], by simp [h1], by simp [h2], by simp [h3], ?_, h4, le_of_eq h5.symm⟩
    intro e he
    cases he
  have hsm : ∀ (now : Nat) (p : Int × Int × Int) (c : Color) (u : RobotState),
      (start_mission now p c u).pick_history = u.pick_history ∧
      (start_mission now p c u).total_picks = u.total_picks ∧
      (start_mission now p c u).successful_picks = u.successful_picks ∧
      (start_mission now p c u).failed_picks = u.failed_picks ∧
      (start_mission now p c u).batch_completions = u.batch_completions := by
    intro now p c u
    by_cases h : u.is_moving = true <;> simp [start_mission, h]
  have hsb : ∀ (now : Nat) (objs : List Obj) (u : RobotState),
      (start_batch_pick now objs u).pick_history = u.pick_history ∧
      (start_batch_pick now objs u).total_picks = u.total_picks ∧
      (start_batch_pick now objs u).successful_picks = u.successful_picks ∧
      (start_batch_pick now objs u).failed_picks = u.failed_picks ∧
      (start_batch_pick now objs u).batch_completions = u.batch_completions := by
    intro now objs u
    cases objs with
    | nil => simp [start_batch_pick]
    | cons x rest =>
      by_cases h : u.is_moving = true
      · simp [start_batch_pick, h]
      · simp only [Bool.not_eq_true] at h
        simp only [start_batch_pick, h, List.isEmpty_cons, Bool.not_false, Bool.and_self, if_true]
        exact hsm now x.robot_pos x.color _
  have hsc : ∀ (now : Nat) (objs : List Obj) (c : Color) (u : RobotState),
      (start_color_batch_pick now objs c u).pick_history = u.pick_history ∧
      (start_color_batch_pick now objs c u).total_picks = u.total_picks ∧
      (start_color_batch_pick now objs c u).successful_picks = u.successful_picks ∧
      (start_color_batch_pick now objs c u).failed_picks = u.failed_picks ∧
      (start_color_batch_pick now objs c u).batch_completions = u.batch_completions := by
    intro now objs c u
    simp only [start_color_batch_pick]
    by_cases h : (objs.filter (fun obj => obj.color = c)).isEmpty
    · simp [h]
    · simp only [Bool.not_eq_true] at h
      simp only [h, Bool.not_false, if_true]
      exact hsb now _ u
  have hsa : ∀ (now : Nat) (objs : List Obj) (u : RobotState),
      (start_all_objects_batch now objs u).pick_history = u.pick_history ∧
      (start_all_objects_batch now objs u).total_picks = u.total_picks ∧
      (start_all_objects_batch now objs u).successful_picks = u.successful_picks ∧
      (start_all_objects_batch now objs u).failed_picks = u.failed_picks ∧
      (start_all_objects_batch now objs u).batch_completions = u.batch_completions := by
    intro now objs u
    simp only [start_all_objects_batch]
    by_cases h : objs.isEmpty
    · simp [h]
    · simp only [Bool.not_eq_true] at h
      simp only [h, Bool.not_false, if_true]
      exact hsb now _ u
  cases o with
  | startMission now p c =>
    obtain ⟨a1, a2, a3, a4, a5⟩ := hsm now p c s
    exact key s _ a1 a2 a3 a4 a5
  | startBatchPick now objs =>
    obtain ⟨a1, a2, a3, a4, a5⟩ := hsb now objs s
    exact key s _ a1 a2 a3 a4 a5
  | startColorBatchPick now objs c =>
    obtain ⟨a1, a2, a3, a4, a5⟩ := hsc now objs c s
    exact key s _ a1 a2 a3 a4 a5
  | startAllObjectsBatch now objs =>
    obtain ⟨a1, a2, a3, a4, a5⟩ := hsa now objs s
    exact key s _ a1 a2 a3 a4 a5
  | updateMission now =>
    simp only [applyOp]
    rw [update_mission]
    by_cases h : (s.is_moving && s.current_mission.isSome) = true
    · rw [if_pos h]
      by_cases h2 : ({ s with mission_progress := s.mission_progress + 2 } : RobotState).mission_progress ≥ 100
      · rw [if_pos h2]
        simpa using complete_mission_mono now { s with mission_progress := s.mission_progress + 2 }
      · rw [if_neg h2]
        exact key s _ rfl rfl rfl rfl rfl
    · rw [if_neg h]
      exact key s s rfl rfl rfl rfl rfl

/-- C10: in every reachable controller state, `total_picks` equals
`successful_picks` equals the history length, `failed_picks` stays 0 and
every history entry has `success = True`; moreover no public operation
decreases a counter, removes a history entry or mutates one (the old
history is always a prefix of the new one). -/
theorem metrics_history_invariant :
    (∀ s, Reachable s →
      s.total_picks = s.successful_picks ∧
      s.successful_picks = s.pick_history.length ∧
      s.failed_picks = 0 ∧
      ∀ e ∈ s.pick_history, e.success = true) ∧
    (∀ (s : RobotState) (o : Op),
      (∃ t, (applyOp o s).pick_history = s.pick_history ++ t) ∧
      s.total_picks ≤ (applyOp o s).total_picks ∧
      s.successful_picks ≤ (applyOp o s).successful_picks ∧
      s.failed_picks ≤ (applyOp o s).failed_picks ∧
      s.batch_completions ≤ (applyOp o s).batch_completions) := by
  constructor
  · intro s hs
    induction hs with
    | init => exact ⟨rfl, rfl, rfl, by intro e he; cases he⟩
    | step o _ ih =>
      obtain ⟨hi1, hi2, hi3, hi4⟩ := ih
      obtain ⟨t, ht1, ht2, ht3, ht4, ht5, _⟩ := applyOp_mono o _
      refine ⟨?_, ?_, ?_, ?_⟩
      · rw [ht2, ht3, hi1]
      · rw [ht3, hi2, ht1, List.length_append]
      · rw [ht5, hi3]
      · intro e he
        rw [ht1] at he
        rcases List.mem_append.mp he with h | h
        · exact hi4 e h
        · exact ht4 e h
  · intro s o
    obtain ⟨t, ht1, ht2, ht3, _, ht5, ht6⟩ := applyOp_mono o s
    exact ⟨⟨t, ht1⟩, by omega, by omega, le_of_eq ht5.symm, ht6⟩

/-- Witness for C10: the invariant holds at the initial state, which is
reachable by construction. -/
theorem metrics_history_invariant_witness :
    RobotState.init.total_picks = RobotState.init.successful_picks ∧
    RobotState.init.successful_picks = RobotState.init.pick_history.length ∧
    RobotState.init.failed_picks = 0 ∧
    ∀ e ∈ RobotState.init.pick_history, e.success = true :=
  metrics_history_invariant.1 RobotState.init Reachable.init

/-! ### ObjectSelector (`object_tracker.py`) -/

/-- The state of `ObjectSelector`. -/
structure ObjectSelector where
  tolerance_radius : Int
  selected_object : Option Obj
  selection_id : Option String
deriving DecidableEq, Repr

/-- Squared Euclidean distance between two pixel positions.  The source
compares `math.sqrt(dsq) <= tolerance_radius`; over the reals this is
equivalent to `0 ≤ tolerance_radius ∧ dsq ≤ tolerance_radius²`, the exact
form used by `withinTolerance`. -/
def distSq (p q : Int × Int) : Int :=
  (p.1 - q.1) ^ 2 + (p.2 - q.2) ^ 2

/-- `distance <= self.tolerance_radius` with `distance = sqrt dsq`. -/
def withinTolerance (r dsq : Int) : Bool :=
  decide (0 ≤ r) && decide (dsq ≤ r * r)

/-- `ObjectSelector.update_selection`: collect the detections within the
tolerance radius of the previously selected pixel position together with
their distances, sort them by distance (Python's `sort` is stable, so ties
keep detection order) and re-bind the selection to the first one; with no
match, return `None` and leave the selection untouched. -/
def ObjectSelector.update_selection (sel : ObjectSelector) (current_objects : List Obj) :
    ObjectSelector × Option Obj :=
  match sel.selected_object with
  | none => (sel, none)
  | some so =>
    let matching_objects :=
      (current_objects.map (fun obj => (obj, distSq obj.pixel_pos so.pixel_pos))).filter
        (fun od => withinTolerance sel.tolerance_radius od.2)
    match sortByKey (fun od => od.2) matching_objects with
    | [] => (sel, none)
    | closest_obj :: _ =>
      ({ sel with selected_object := some closest_obj.1, selection_id := some closest_obj.1.id },
        some closest_obj.1)

/-- `ObjectSelector.select_object`. -/
def ObjectSelector.select_object (sel : ObjectSelector) (obj : Obj) : ObjectSelector × Obj :=
  ({ sel with selected_object := some obj, selection_id := some obj.id }, obj)

/-- `ObjectSelector.clear_selection`. -/
def ObjectSelector.clear_selection (sel : ObjectSelector) : ObjectSelector :=
  { sel with selected_object := none, selection_id := none }

/-- `ObjectSelector.is_object_selected`. -/
def ObjectSelector.is_object_selected (sel : ObjectSelector) : Bool :=
  sel.selected_object.isSome

/-- The head of a stable key-sort is the first element of the input
attaining the minimal key. -/
theorem sortByKey_head_first_min {α β : Type} [LinearOrder β] (key : α → β) :
    ∀ (l : List α) (a : α),
    ∃ best rest2, sortByKey key (a :: l) = best :: rest2 ∧
      (∃ l1 l2, a :: l = l1 ++ best :: l2 ∧ ∀ x ∈ l1, key best < key x) ∧
      (∀ x ∈ a :: l, key best ≤ key x) := by
  intro l
  induction l with
  | nil =>
    intro a
    exact ⟨a, [], rfl, ⟨[], [], rfl, by intro x hx; cases hx⟩,
      by intro x hx; rw [List.mem_singleton.mp hx]⟩
  | cons b t ih =>
    intro a
    obtain ⟨best, rest2, hsort, ⟨l1, l2, hdec, hpred⟩, hmin⟩ := ih b
    show ∃ u v, insertByKey key a (sortByKey key (b :: t)) = u :: v ∧ _
    rw [hsort]
    by_cases hab : key a ≤ key best
    · refine ⟨a, best :: rest2, by rw [insertByKey, if_pos hab], ⟨[], b :: t, rfl, ?_⟩, ?_⟩
      · intro x hx; cases hx
      · intro x hx
        rcases List.mem_cons.mp hx with h | h
        · rw [h]
        · exact le_trans hab (hmin x h)
    · push_neg at hab
      refine ⟨best, insertByKey key a rest2, by rw [insertByKey, if_neg (not_le.mpr hab)],
        ⟨a :: l1, l2, by rw [List.cons_append, hdec], ?_⟩, ?_⟩
      · intro x hx
        rcases List.mem_cons.mp hx with h | h
        · rw [h]; exact hab
        · exact hpred x h
      · intro x hx
        rcases List.mem_cons.mp hx with h | h
        · rw [h]; exact le_of_lt hab
        · exact hmin x h

/-- A decomposition of `filter p (map f l)` pulls back to a decomposition
of `l`. -/
theorem filter_map_decomp {α γ : Type} (f : α → γ) (p : γ → Bool) :
    ∀ (l : List α) (x : γ) (l1 l2 : List γ),
    (l.map f).filter p = l1 ++ x :: l2 →
    ∃ la y lb, l = la ++ y :: lb ∧ f y = x ∧ (la.map f).filter p = l1 := by
  intro l
  induction l with
  | nil =>
    intro x l1 l2 h
    simp only [List.map_nil, List.filter_nil] at h
    exact absurd h.symm (List.append_ne_nil_of_right_ne_nil l1 (List.cons_ne_nil x l2))
  | cons a t ih =>
    intro x l1 l2 h
    by_cases hp : p (f a) = true
    · rw [List.map_cons, List.filter_cons, if_pos hp] at h
      cases l1 with
      | nil =>
        simp only [List.nil_append] at h
        exact ⟨[], a, t, rfl, (List.cons.injEq _ _ _ _ ▸ h).1, rfl⟩
      | cons h1 t1 =>
        rw [List.cons_append] at h
        obtain ⟨he, ht⟩ := List.cons.injEq _ _ _ _ ▸ h
        obtain ⟨la, y, lb, hl, hf, hfil⟩ := ih x t1 l2 ht
        exact ⟨a :: la, y, lb, by rw [hl, List.cons_append], hf,
          by rw [List.map_cons, List.filter_cons, if_pos hp, hfil, he]⟩
    · rw [List.map_cons, List.filter_cons, if_neg hp] at h
      obtain ⟨la, y, lb, hl, hf, hfil⟩ := ih x l1 l2 h
      exact ⟨a :: la, y, lb, by rw [hl, List.cons_append], hf,
        by rw [List.map_cons, List.filter_cons, if_neg hp, hfil]⟩

/-- C4: while an object `so` is selected, `update_selection` re-binds the
selection — both the stored object and the stored identity — to the
detection closest (Euclidean pixel distance) to the previously selected
position among those within the tolerance radius, ties broken by
detection-list order; and when no detection is in range the selector state
is left completely unchanged (neither cleared nor updated). -/
theorem update_selection_nearest_or_unchanged (sel : ObjectSelector) (so : Obj)
    (objs : List Obj) (hsel : sel.selected_object = some so) :
    ((∀ o ∈ objs, withinTolerance sel.tolerance_radius (distSq o.pixel_pos so.pixel_pos) = false) →
      sel.update_selection objs = (sel, none)) ∧
    (∀ o0 ∈ objs, withinTolerance sel.tolerance_radius (distSq o0.pixel_pos so.pixel_pos) = true →
      ∃ best,
        (sel.update_selection objs).2 = some best ∧
        (sel.update_selection objs).1 =
          { sel with selected_object := some best, selection_id := some best.id } ∧
        best ∈ objs ∧
        withinTolerance sel.tolerance_radius (distSq best.pixel_pos so.pixel_pos) = true ∧
        (∀ o ∈ objs, withinTolerance sel.tolerance_radius (distSq o.pixel_pos so.pixel_pos) = true →
          distSq best.pixel_pos so.pixel_pos ≤ distSq o.pixel_pos so.pixel_pos) ∧
        ∃ la lb, objs = la ++ best :: lb ∧
          ∀ o ∈ la, withinTolerance sel.tolerance_radius (distSq o.pixel_pos so.pixel_pos) = true →
            distSq best.pixel_pos so.pixel_pos < distSq o.pixel_pos so.pixel_pos) := by
  constructor
  · intro hall
    have hm : (objs.map (fun obj => (obj, distSq obj.pixel_pos so.pixel_pos))).filter
        (fun od => withinTolerance sel.tolerance_radius od.2) = [] := by
      rw [List.filter_eq_nil_iff]
      intro od hod
      obtain ⟨o, ho, rfl⟩ := List.mem_map.mp hod
      simp [hall o ho]
    simp only [ObjectSelector.update_selection, hsel, hm, sortByKey]
  · intro o0 ho0 hw0
    have hmem : (o0, distSq o0.pixel_pos so.pixel_pos) ∈
        (objs.map (fun obj => (obj, distSq obj.pixel_pos so.pixel_pos))).filter
          (fun od => withinTolerance sel.tolerance_radius od.2) :=
      List.mem_filter.mpr ⟨List.mem_map.mpr ⟨o0, ho0, rfl⟩, by simpa using hw0⟩
    cases hmat : (objs.map (fun obj => (obj, distSq obj.pixel_pos so.pixel_pos))).filter
        (fun od => withinTolerance sel.tolerance_radius od.2) with
    | nil => rw [hmat] at hmem; cases hmem
    | cons m0 mrest =>
      obtain ⟨best, rest2, hsort, ⟨l1, l2, hdec, hpred⟩, hmin⟩ :=
        sortByKey_head_first_min (fun od : Obj × Int => od.2) mrest m0
      have hbestmem : best ∈ m0 :: mrest := by
        rw [hdec]
        exact List.mem_append.mpr (Or.inr (List.mem_cons_self _ _))
      rw [← hmat] at hbestmem
      have hb2 := List.mem_filter.mp hbestmem
      obtain ⟨ob, hob, hobe⟩ := List.mem_map.mp hb2.1
      cases hobe
      have hres : sel.update_selection objs =
          ({ sel with selected_object := some ob, selection_id := some ob.id }, some ob) := by
        simp only [ObjectSelector.update_selection, hsel, hmat, hsort]
      refine ⟨ob, by rw [hres], by rw [hres], hob, by simpa using hb2.2, ?_, ?_⟩
      · intro o ho hw
        have homem : (o, distSq o.pixel_pos so.pixel_pos) ∈
            (objs.map (fun obj => (obj, distSq obj.pixel_pos so.pixel_pos))).filter
              (fun od => withinTolerance sel.tolerance_radius od.2) :=
          List.mem_filter.mpr ⟨List.mem_map.mpr ⟨o, ho, rfl⟩, by simpa using hw⟩
        rw [hmat] at homem
        exact hmin (o, distSq o.pixel_pos so.pixel_pos) homem
      · obtain ⟨la, y, lb, hl, hf, hfila⟩ :=
          filter_map_decomp (fun obj => (obj, distSq obj.pixel_pos so.pixel_pos))
            (fun od => withinTolerance sel.tolerance_radius od.2) objs
            (ob, distSq ob.pixel_pos so.pixel_pos) l1 l2 (by rw [hmat, hdec])
      -- `f y = (ob, d)` forces `y = ob`
        have hy : y = ob := congrArg Prod.fst hf
        refine ⟨la, lb, by rw [hl, hy], ?_⟩
        intro o ho hw
        have : (o, distSq o.pixel_pos so.pixel_pos) ∈
            (la.map (fun obj => (obj, distSq obj.pixel_pos so.pixel_pos))).filter
              (fun od => withinTolerance sel.tolerance_radius od.2) :=
          List.mem_filter.mpr ⟨List.mem_map.mpr ⟨o, ho, rfl⟩, by simpa using hw⟩
        rw [hfila] at this
        exact hpred (o, distSq o.pixel_pos so.pixel_pos) this

/-- A selected object at pixel (100, 100), as in the spec's selector
example. -/
def exSo : Obj :=
  { pixel_pos := (100, 100), robot_pos := (100, 100, 20), size := (10, 10), area := 200,
    color := .red, bbox := (95, 95, 10, 10), id := "Red_100_100" }

/-- A detection at pixel (120, 100) (distance 20 from the selection). -/
def exObj120 : Obj :=
  { pixel_pos := (120, 100), robot_pos := (120, 100, 20), size := (10, 10), area := 200,
    color := .red, bbox := (115, 95, 10, 10), id := "Red_120_100" }

/-- A detection at pixel (200, 100) (distance 100 from the selection). -/
def exObj200 : Obj :=
  { pixel_pos := (200, 100), robot_pos := (200, 100, 20), size := (10, 10), area := 200,
    color := .red, bbox := (195, 95, 10, 10), id := "Red_200_100" }

/-- A selector with tolerance radius 40 holding `exSo`. -/
def exSel : ObjectSelector :=
  { tolerance_radius := 40, selected_object := some exSo, selection_id := some "Red_100_100" }

/-- Witness for C4 at the spec's concrete inputs: with detections at
(120,100) and (200,100) the selection re-binds to the (120,100) object;
with only (200,100) present the selector is unchanged. -/
theorem update_selection_nearest_witness :
    exSel.selected_object = some exSo ∧
    exSel.update_selection [exObj200] = (exSel, none) ∧
    (exSel.update_selection [exObj120, exObj200]).2 = some exObj120 ∧
    (exSel.update_selection [exObj120, exObj200]).1.selected_object = some exObj120 ∧
    (exSel.update_selection [exObj120, exObj200]).1.selection_id = some "Red_120_100" :=
  ⟨rfl,
   (update_selection_nearest_or_unchanged exSel exSo [exObj200] rfl).1 (by decide),
   by decide, by decide, by decide⟩

/-! ### PositionStabilizer (`object_tracker.py`) -/

/-- The state of `PositionStabilizer`: the `position_buffers` dict is
modelled as an insertion-ordered association list. -/
structure PositionStabilizer where
  buffer_size : Nat
  position_buffers : List (String × List (Int × Int))
deriving DecidableEq, Repr

/-- Dict lookup in `position_buffers`. -/
def lookupBuffer (bufs : List (String × List (Int × Int))) (k : String) :
    Option (List (Int × Int)) :=
  match bufs with
  | [] => none
  | (k2, v) :: rest => if k2 = k then some v else lookupBuffer rest k

/-- Dict assignment `position_buffers[k] = v` (update in place, or append a
new key). -/
def setBuffer (bufs : List (String × List (Int × Int))) (k : String) (v : List (Int × Int)) :
    List (String × List (Int × Int)) :=
  match bufs with
  | [] => [(k, v)]
  | (k2, v2) :: rest => if k2 = k then (k, v) :: rest else (k2, v2) :: setBuffer rest k v

/-- The buffer currently stored for `k` (a fresh identity behaves as an
empty buffer, matching the `deque(maxlen=...)` creation on first use). -/
def bufOf (st : PositionStabilizer) (k : String) : List (Int × Int) :=
  (lookupBuffer st.position_buffers k).getD []

/-- `deque(maxlen=maxlen).append(p)`: append and evict from the left down
to `maxlen` elements. -/
def dequeAppend (maxlen : Nat) (buf : List (Int × Int)) (p : Int × Int) : List (Int × Int) :=
  let b := buf ++ [p]
  b.drop (b.length - maxlen)

/-- `np.median` of an odd-length integer list: the middle element of the
sorted list.  (`update` only computes a median when the buffer has exactly
`buffer_size = 5` elements, so only the odd case is exercised; the
`astype(int)` cast is the identity on the integer median.) -/
def medianOdd (l : List Int) : Int :=
  (sortByKey (fun x => x) l).getD (l.length / 2) 0

/-- `np.median(buffer, axis=0)`: the coordinate-wise median. -/
def medianPos (buf : List (Int × Int)) : Int × Int :=
  (medianOdd (buf.map Prod.fst), medianOdd (buf.map Prod.snd))

/-- `PositionStabilizer.update`. -/
def PositionStabilizer.update (st : PositionStabilizer) (obj_id : String)
    (position : Int × Int) : PositionStabilizer × (Int × Int) :=
  let buf := bufOf st obj_id
  let newBuf := dequeAppend st.buffer_size buf position
  let st2 := { st with position_buffers := setBuffer st.position_buffers obj_id newBuf }
  if newBuf.length = st.buffer_size then (st2, medianPos newBuf) else (st2, position)

/-- `PositionStabilizer.cleanup`. -/
def PositionStabilizer.cleanup (st : PositionStabilizer) (current_ids : List String) :
    PositionStabilizer :=
  { st with position_buffers := st.position_buffers.filter (fun kv => kv.1 ∈ current_ids) }

/-- Feed a sequence of positions for one identity, collecting the returned
(stabilized) positions. -/
def feedPositions (st : PositionStabilizer) (obj_id : String) :
    List (Int × Int) → PositionStabilizer × List (Int × Int)
  | [] => (st, [])
  | p :: ps =>
    let r1 := st.update obj_id p
    let r2 := feedPositions r1.1 obj_id ps
    (r2.1, r1.2 :: r2.2)

/-! #### Sorting facts for the median -/

theorem insertByKey_perm {α β : Type} [LinearOrder β] (key : α → β) (a : α) (l : List α) :
    List.Perm (insertByKey key a l) (a :: l) := by
  induction l with
  | nil => rfl
  | cons b t ih =>
    rw [insertByKey]
    by_cases h : key a ≤ key b
    · rw [if_pos h]
    · rw [if_neg h]
      exact ((ih.cons b).trans (List.Perm.swap a b t))

theorem sortByKey_perm {α β : Type} [LinearOrder β] (key : α → β) (l : List α) :
    List.Perm (sortByKey key l) l := by
  induction l with
  | nil => rfl
  | cons a t ih => exact (insertByKey_perm key a (sortByKey key t)).trans (ih.cons a)

theorem insertByKey_pairwise {α β : Type} [LinearOrder β] (key : α → β) (a : α) (l : List α)
    (h : l.Pairwise (fun x y => key x ≤ key y)) :
    (insertByKey key a l).Pairwise (fun x y => key x ≤ key y) := by
  induction l with
  | nil => simp [insertByKey]
  | cons b t ih =>
    rw [List.pairwise_cons] at h
    rw [insertByKey]
    by_cases hab : key a ≤ key b
    · rw [if_pos hab, List.pairwise_cons]
      refine ⟨?_, List.pairwise_cons.mpr h⟩
      intro x hx
      rcases List.mem_cons.mp hx with hx | hx
      · rw [hx]; exact hab
      · exact le_trans hab (h.1 x hx)
    · rw [if_neg hab, List.pairwise_cons]
      refine ⟨?_, ih h.2⟩
      intro x hx
      have hx2 := (insertByKey_perm key a t).mem_iff.mp hx
      rcases List.mem_cons.mp hx2 with hx3 | hx3
      · rw [hx3]; exact le_of_lt (not_le.mp hab)
      · exact h.1 x hx3

theorem sortByKey_pairwise {α β : Type} [LinearOrder β] (key : α → β) (l : List α) :
    (sortByKey key l).Pairwise (fun x y => key x ≤ key y) := by
  induction l with
  | nil => simp [sortByKey]
  | cons a t ih => exact insertByKey_pairwise key a (sortByKey key t) ih

/-- The median of five integers of which at least four are equal to `v` is
`v` (robustness to a single outlier). -/
theorem medianOdd_of_four (l : List Int) (v : Int) (h5 : l.length = 5)
    (hc : 4 ≤ l.count v) : medianOdd l = v := by
  have hlen : (sortByKey (fun x : Int => x) l).length = 5 := by
    rw [length_sortByKey, h5]
  have hcount : 4 ≤ (sortByKey (fun x : Int => x) l).count v := by
    rw [(sortByKey_perm (fun x : Int => x) l).count_eq v]
    exact hc
  have hsorted := sortByKey_pairwise (fun x : Int => x) l
  rw [medianOdd, h5]
  show (sortByKey (fun x : Int => x) l).getD 2 0 = v
  rcases hs : sortByKey (fun x : Int => x) l with _ | ⟨a, _ | ⟨b, _ | ⟨c, _ | ⟨d, _ | ⟨e, rest⟩⟩⟩⟩⟩ <;>
    rw [hs] at hlen <;> simp only [List.length_nil, List.length_cons] at hlen <;>
    try omega
  have hrest : rest = [] := by
    rw [← List.length_eq_zero]
    omega
  subst hrest
  rw [hs] at hcount hsorted
  simp only [List.pairwise_cons, List.mem_cons, List.mem_singleton, List.not_mem_nil] at hsorted
  have hbc : b ≤ c := hsorted.2.1 c (Or.inl rfl)
  have hcd : c ≤ d := hsorted.2.2.1 d (Or.inl rfl)
  show c = v
  by_contra hne
  simp only [List.count_cons, List.count_nil, beq_iff_eq] at hcount
  split_ifs at hcount <;> omega

/-! #### The buffer is always the last 5 fed positions -/

/-- The last `n` elements of a list. -/
def lastN (n : Nat) (l : List (Int × Int)) : List (Int × Int) :=
  l.drop (l.length - n)

theorem dequeAppend_lastN (x : List (Int × Int)) (p : Int × Int) :
    dequeAppend 5 (lastN 5 x) p = lastN 5 (x ++ [p]) := by
  simp only [dequeAppend, lastN, List.drop_append_eq_append_drop, List.drop_drop,
    List.length_append, List.length_drop, List.length_singleton]
  congr 1
  · congr 1
    omega
  · congr 1
    omega

theorem lookupBuffer_setBuffer (bufs : List (String × List (Int × Int))) (k : String)
    (v : List (Int × Int)) : lookupBuffer (setBuffer bufs k v) k = some v := by
  induction bufs with
  | nil => simp [setBuffer, lookupBuffer]
  | cons kv rest ih =>
    obtain ⟨k2, v2⟩ := kv
    rw [setBuffer]
    by_cases h : k2 = k
    · rw [if_pos h, lookupBuffer, if_pos rfl]
    · rw [if_neg h, lookupBuffer, if_neg h]
      exact ih

/-- Feeding positions for one identity: provided the stored buffer is the
last 5 of some already-fed history `pre`, each output is the raw input
while the post-append buffer is shorter than 5 and the coordinate-wise
median of the last 5 fed positions otherwise. -/
theorem feedPositions_spec (obj_id : String) :
    ∀ (ps : List (Int × Int)) (st : PositionStabilizer) (pre : List (Int × Int)),
    st.buffer_size = 5 → bufOf st obj_id = lastN 5 pre →
    (feedPositions st obj_id ps).2.length = ps.length ∧
    ∀ i, i < ps.length →
      (feedPositions st obj_id ps).2.getD i (0, 0) =
        if pre.length + i + 1 < 5 then ps.getD i (0, 0)
        else medianPos (lastN 5 (pre ++ ps.take (i + 1))) := by
  intro ps
  induction ps with
  | nil =>
    intro st pre h1 h2
    exact ⟨rfl, by intro i hi; cases hi⟩
  | cons p rest ih =>
    intro st pre hsz hbuf
    have hupd : st.update obj_id p =
        if (lastN 5 (pre ++ [p])).length = 5 then
          ({ buffer_size := 5,
             position_buffers := setBuffer st.position_buffers obj_id (lastN 5 (pre ++ [p])) },
           medianPos (lastN 5 (pre ++ [p])))
        else
          ({ buffer_size := 5,
             position_buffers := setBuffer st.position_buffers obj_id (lastN 5 (pre ++ [p])) },
           p) := by
      simp only [PositionStabilizer.update, hbuf, hsz, dequeAppend_lastN]
    have hupd2 : (st.update obj_id p).2 =
        if (lastN 5 (pre ++ [p])).length = 5 then medianPos (lastN 5 (pre ++ [p])) else p := by
      rw [hupd]
      by_cases h : (lastN 5 (pre ++ [p])).length = 5
      · rw [if_pos h, if_pos h]
      · rw [if_neg h, if_neg h]
    have hb2 : bufOf (st.update obj_id p).1 obj_id = lastN 5 (pre ++ [p]) := by
      rw [hupd]
      by_cases h : (lastN 5 (pre ++ [p])).length = 5
      · rw [if_pos h]
        simp [bufOf, lookupBuffer_setBuffer]
      · rw [if_neg h]
        simp [bufOf, lookupBuffer_setBuffer]
    have hsz2 : (st.update obj_id p).1.buffer_size = 5 := by
      rw [hupd]
      by_cases h : (lastN 5 (pre ++ [p])).length = 5
      · rw [if_pos h]
      · rw [if_neg h]
    obtain ⟨ihlen, ihspec⟩ := ih (st.update obj_id p).1 (pre ++ [p]) hsz2 hb2
    have hfeed2 : (feedPositions st obj_id (p :: rest)).2 =
        (st.update obj_id p).2 :: (feedPositions (st.update obj_id p).1 obj_id rest).2 := rfl
    constructor
    · rw [hfeed2, List.length_cons, ihlen, List.length_cons]
    · intro i hi
      cases i with
      | zero =>
        rw [hfeed2, List.getD_cons_zero, hupd2]
        have hlast : (lastN 5 (pre ++ [p])).length = min (pre.length + 1) 5 := by
          simp only [lastN, List.length_drop, List.length_append, List.length_singleton]
          omega
        by_cases h : pre.length + 0 + 1 < 5
        · rw [if_pos h, if_neg (by omega), List.getD_cons_zero]
        · rw [if_neg h, if_pos (by omega)]
          have : (p :: rest).take (0 + 1) = [p] := rfl
          rw [this]
      | succ j =>
        rw [hfeed2, List.getD_cons_succ]
        rw [ihspec j (by simpa using Nat.lt_of_succ_lt_succ hi)]
        have hc : (pre ++ [p]).length + j + 1 = pre.length + (j + 1) + 1 := by
          simp only [List.length_append, List.length_singleton]
          omega
        rw [hc]
        have ht : (pre ++ [p]) ++ rest.take (j + 1) = pre ++ (p :: rest).take (j + 1 + 1) := by
          rw [List.take_succ_cons, List.append_assoc, List.singleton_append]
        rw [ht, List.getD_cons_succ]

/-- C6: feeding any position sequence for one identity into a fresh
`PositionStabilizer` of capacity 5: while the buffer holds fewer than 5
entries each `update` returns the raw input unchanged; from the 5th entry
on it returns the coordinate-wise median of the 5 buffered positions; in
particular one outlier after 4 identical values still yields the identical
value once the buffer is full. -/
theorem stabilizer_raw_below_capacity_median_after (obj_id : String) (ps : List (Int × Int)) :
    (feedPositions { buffer_size := 5, position_buffers := [] } obj_id ps).2.length = ps.length ∧
    (∀ i, i < ps.length → i + 1 < 5 →
      (feedPositions { buffer_size := 5, position_buffers := [] } obj_id ps).2.getD i (0, 0) =
        ps.getD i (0, 0)) ∧
    (∀ i, i < ps.length → 5 ≤ i + 1 →
      (feedPositions { buffer_size := 5, position_buffers := [] } obj_id ps).2.getD i (0, 0) =
        medianPos ((ps.take (i + 1)).drop (i - 4))) ∧
    (∀ v o : Int × Int,
      (feedPositions { buffer_size := 5, position_buffers := [] } obj_id [v, v, v, v, o]).2 =
        [v, v, v, v, v]) := by
  have hbase : bufOf { buffer_size := 5, position_buffers := [] } obj_id = lastN 5 [] := rfl
  obtain ⟨hlen, hspec⟩ :=
    feedPositions_spec obj_id ps { buffer_size := 5, position_buffers := [] } [] rfl hbase
  refine ⟨hlen, ?_, ?_, ?_⟩
  · intro i hi hsmall
    rw [hspec i hi, if_pos (by simpa using hsmall)]
  · intro i hi hbig
    rw [hspec i hi, if_neg (by simp; omega)]
    have harg : lastN 5 ([] ++ ps.take (i + 1)) = (ps.take (i + 1)).drop (i - 4) := by
      simp only [List.nil_append, lastN, List.length_take]
      congr 1
      omega
    rw [harg]
  · intro v o
    have hmed : medianPos [v, v, v, v, o] = v := by
      obtain ⟨vx, vy⟩ := v
      obtain ⟨ox, oy⟩ := o
      simp only [medianPos, List.map_cons, List.map_nil]
      rw [medianOdd_of_four [vx, vx, vx, vx, ox] vx (by simp) (by simp [List.count_cons]),
        medianOdd_of_four [vy, vy, vy, vy, oy] vy (by simp) (by simp [List.count_cons])]
    obtain ⟨hlen5, hspec5⟩ :=
      feedPositions_spec obj_id [v, v, v, v, o] { buffer_size := 5, position_buffers := [] }
        [] rfl hbase
    have h0 := hspec5 0 (by simp)
    have h1 := hspec5 1 (by simp)
    have h2 := hspec5 2 (by simp)
    have h3 := hspec5 3 (by simp)
    have h4 := hspec5 4 (by simp)
    simp only [List.length_nil, List.getD_cons_zero, List.getD_cons_succ] at h0 h1 h2 h3 h4
    rw [if_pos (by omega)] at h0
    rw [if_pos (by omega)] at h1
    rw [if_pos (by omega)] at h2
    rw [if_pos (by omega)] at h3
    rw [if_neg (by omega)] at h4
    have harg5 : lastN 5 ([] ++ ([v, v, v, v, o] : List (Int × Int)).take (4 + 1)) =
        [v, v, v, v, o] := rfl
    rw [harg5, hmed] at h4
    have hl5 : (feedPositions { buffer_size := 5, position_buffers := [] } obj_id
        [v, v, v, v, o]).2.length = 5 := hlen5
    rcases hout : (feedPositions { buffer_size := 5, position_buffers := [] } obj_id
        [v, v, v, v, o]).2 with _ | ⟨a0, _ | ⟨a1, _ | ⟨a2, _ | ⟨a3, _ | ⟨a4, tail⟩⟩⟩⟩⟩ <;>
      rw [hout] at hl5 <;> simp only [List.length_nil, List.length_cons] at hl5 <;> try omega
  -- five outputs; identify each with the computed value
    have htail : tail = [] := by
      rw [← List.length_eq_zero]
      omega
    subst htail
    rw [hout] at h0 h1 h2 h3 h4
    simp only [List.getD_cons_zero, List.getD_cons_succ] at h0 h1 h2 h3 h4
    rw [h0, h1, h2, h3, h4]

/-- Witness for C6 at a concrete input: four identical positions (3, 4)
followed by the outlier (100, 200) still stabilize to (3, 4). -/
theorem stabilizer_witness :
    (feedPositions { buffer_size := 5, position_buffers := [] } "Red_10_10"
        [(3, 4), (3, 4), (3, 4), (3, 4), (100, 200)]).2 =
      [(3, 4), (3, 4), (3, 4), (3, 4), (3, 4)] :=
  (stabilizer_raw_below_capacity_median_after "Red_10_10"
    [(3, 4), (3, 4), (3, 4), (3, 4), (100, 200)]).2.2.2 (3, 4) (100, 200)

/-! ### ColorDetector (`color_detection.py`) -/

/-- An HSV bound vector, `np.array([h, s, v])`. -/
abbrev HsvVec := Int × Int × Int

/-- The OpenCV/NumPy primitives `color_detection.py` calls, abstracted over
the image, mask and contour representations.  Kernel sizes, flags and
iteration counts are fixed in the source, so each call shape is one
field. -/
structure CvOps (Img Mask Contour : Type) where
  gaussianBlur : Img → Img
  cvtColorBGR2HSV : Img → Img
  zerosMask : Img → Mask
  inRange : Img → HsvVec → HsvVec → Mask
  bitwiseOr : Mask → Mask → Mask
  morphOpen : Mask → Mask
  morphClose : Mask → Mask
  dilate : Mask → Mask
  findContours : Mask → List Contour
  contourArea : Contour → ℚ
  convexHull : Contour → Contour
  boundingRect : Contour → Int × Int × Int × Int
  shape : Img → Int × Int

/-- The Python string name of a color label (the keys of `hsv_ranges` and
`drop_locations` and the labels carried by detections). -/
def Color.pyName : Color → String
  | .red => "Red"
  | .green => "Green"
  | .blue => "Blue"

/-- The columns `load_color_dataset` reads from `colors.csv`. -/
structure ColorCsv where
  names : List String
  rcol : List Int
  gcol : List Int
  bcol : List Int

/-- The state of `ColorDetector`: the dataset-derived fields plus the
`hsv_ranges` dict (keys modelled by the `Color` enum of its three string
keys). -/
structure ColorDetector where
  color_names : List String
  R : List Int
  G : List Int
  B : List Int
  hsv_ranges : List (Color × List (HsvVec × HsvVec))

/-- `setup_hsv_ranges`: fixed constants, independent of the dataset. -/
def default_hsv_ranges : List (Color × List (HsvVec × HsvVec)) :=
  [(.red, [((0, 100, 100), (10, 255, 255)), ((160, 100, 100), (180, 255, 255))]),
   (.green, [((35, 50, 50), (90, 255, 255))]),
   (.blue, [((95, 50, 50), (135, 255, 255))])]

/-- `setup_default_colors`: the built-in 3-color fallback table. -/
def setup_default_colors : List String × List Int × List Int × List Int :=
  (["Red", "Green", "Blue"], [255, 0, 0], [0, 255, 0], [0, 0, 255])

/-- `ColorDetector.__init__`: `load_color_dataset` (argument `some df` when
`pd.read_csv` succeeds, `none` when it raises and the built-in fallback is
used) followed by `setup_hsv_ranges`. -/
def ColorDetector.init (load_result : Option ColorCsv) : ColorDetector :=
  match load_result with
  | some df =>
    { color_names := df.names, R := df.rcol, G := df.gcol, B := df.bcol,
      hsv_ranges := default_hsv_ranges }
  | none =>
    { color_names := setup_default_colors.1, R := setup_default_colors.2.1,
      G := setup_default_colors.2.2.1, B := setup_default_colors.2.2.2,
      hsv_ranges := default_hsv_ranges }

/-- `preprocess_frame`: blur, then convert to HSV. -/
def preprocess_frame {Img Mask Contour : Type} (cv : CvOps Img Mask Contour) (frame : Img) :
    Img :=
  cv.cvtColorBGR2HSV (cv.gaussianBlur frame)

/-- `clean_mask`: open, close, then dilate, in that fixed order. -/
def clean_mask {Img Mask Contour : Type} (cv : CvOps Img Mask Contour) (mask : Mask) : Mask :=
  cv.dilate (cv.morphClose (cv.morphOpen mask))

/-- Lookup in the `hsv_ranges` dict. -/
def lookupRanges (ranges : List (Color × List (HsvVec × HsvVec))) (c : Color) :
    Option (List (HsvVec × HsvVec)) :=
  match ranges with
  | [] => none
  | (k, v) :: rest => if k = c then some v else lookupRanges rest c

/-- `create_color_mask`: union the `inRange` masks of all intervals of the
color, then clean; `None` for an unknown color name. -/
def create_color_mask {Img Mask Contour : Type} (cv : CvOps Img Mask Contour)
    (d : ColorDetector) (hsv_frame : Img) (color_name : Color) : Option Mask :=
  match lookupRanges d.hsv_ranges color_name with
  | none => none
  | some ranges =>
    some (clean_mask cv
      (ranges.foldl (fun mask lu => cv.bitwiseOr mask (cv.inRange hsv_frame lu.1 lu.2))
        (cv.zerosMask hsv_frame)))

/-- `solidity = float(area) / hull_area if hull_area > 0 else 0`. -/
def solidity (area hull_area : ℚ) : ℚ :=
  if hull_area > 0 then area / hull_area else 0

/-- `find_contours`: keep a contour only when its area strictly exceeds
`min_area` and its solidity strictly exceeds 0.7. -/
def find_contours {Img Mask Contour : Type} (cv : CvOps Img Mask Contour) (mask : Mask)
    (min_area : ℚ) : List Contour :=
  (cv.findContours mask).filter (fun cnt =>
    let area := cv.contourArea cnt
    if area > min_area then
      let hull_area := cv.contourArea (cv.convexHull cnt)
      solidity area hull_area > 7 / 10
    else false)

/-- `process_contours`.  (`//` is Python floor division, `Int.fdiv`; the
`int(...)` robot-coordinate casts truncate, `Int.tdiv`.) -/
def process_contours {Img Mask Contour : Type} (cv : CvOps Img Mask Contour)
    (contours : List Contour) (color_name : Color) (frame_shape : Int × Int) : List Obj :=
  contours.map (fun cnt =>
    let (x, y, w, h) := cv.boundingRect cnt
    let center_x := x + Int.fdiv w 2
    let center_y := y + Int.fdiv h 2
    let robot_x := Int.tdiv (center_x * 600) frame_shape.2
    let robot_y := Int.tdiv (center_y * 400) frame_shape.1
    { pixel_pos := (center_x, center_y)
      robot_pos := (robot_x, robot_y, 20)
      size := (w, h)
      area := cv.contourArea cnt
      color := color_name
      bbox := (x, y, w, h)
      id := color_name.pyName ++ "_" ++ toString center_x ++ "_" ++ toString center_y })

/-- `detect_objects`: iterate the `hsv_ranges` keys in dict order,
collecting the processed contours of each color's cleaned mask. -/
def detect_objects {Img Mask Contour : Type} (cv : CvOps Img Mask Contour)
    (d : ColorDetector) (frame : Img) (min_area : ℚ) : List Obj :=
  let hsv_frame := preprocess_frame cv frame
  d.hsv_ranges.foldl
    (fun acc kv =>
      match create_color_mask cv d hsv_frame kv.1 with
      | none => acc
      | some mask =>
        acc ++ process_contours cv (find_contours cv mask min_area) kv.1 (cv.shape frame))
    []

/-- A trivial concrete instantiation of the OpenCV primitives, used to
evaluate the contour filter at explicit numbers: one contour of area 1000
that is its own convex hull (solidity 1). -/
def cvUnit : CvOps Unit Unit Unit where
  gaussianBlur := id
  cvtColorBGR2HSV := id
  zerosMask := fun _ => ()
  inRange := fun _ _ _ => ()
  bitwiseOr := fun _ _ => ()
  morphOpen := id
  morphClose := id
  dilate := id
  findContours := fun _ => [()]
  contourArea := fun _ => 1000
  convexHull := id
  boundingRect := fun _ => (0, 0, 10, 10)
  shape := fun _ => (480, 640)

/-- Counterexample to C3: a contour whose area equals `min_area` exactly
(1000) and whose solidity is 1 > 0.7 is nevertheless rejected by
`find_contours`, because the code tests `area > min_area` strictly; the
claim predicts it is accepted. -/
theorem contour_filter_boundary_counterexample :
    cvUnit.contourArea () = 1000 ∧
    ¬(cvUnit.contourArea () < 1000) ∧
    solidity (cvUnit.contourArea ()) (cvUnit.contourArea (cvUnit.convexHull ())) = 1 ∧
    () ∈ cvUnit.findContours () ∧
    find_contours cvUnit () 1000 = [] := by
  refine ⟨rfl, by norm_num [cvUnit], ?_, by simp [cvUnit], ?_⟩
  · norm_num [cvUnit, solidity]
  · simp only [find_contours, cvUnit, List.filter_cons, List.filter_nil]
    norm_num

/-- C3 (amended): the contour filter keeps a contour iff its area strictly
exceeds `min_area` and its solidity (area / convex-hull area, 0 when the
hull area is not positive) strictly exceeds 0.7; equivalently it rejects a
contour iff its area is ≤ `min_area` (equality included — not `<` as the
claim stated) or its solidity is ≤ 0.7. -/
theorem find_contours_strict_area_and_solidity {Img Mask Contour : Type}
    [DecidableEq Contour] (cv : CvOps Img Mask Contour) (mask : Mask) (min_area : ℚ)
    (cnt : Contour) :
    (cnt ∈ find_contours cv mask min_area ↔
      cnt ∈ cv.findContours mask ∧
      ¬(cv.contourArea cnt ≤ min_area ∨
        solidity (cv.contourArea cnt) (cv.contourArea (cv.convexHull cnt)) ≤ 7 / 10)) ∧
    (cv.contourArea cnt = min_area → cnt ∉ find_contours cv mask min_area) := by
  have hmem : cnt ∈ find_contours cv mask min_area ↔
      cnt ∈ cv.findContours mask ∧
      (min_area < cv.contourArea cnt ∧
        7 / 10 < solidity (cv.contourArea cnt) (cv.contourArea (cv.convexHull cnt))) := by
    rw [find_contours, List.mem_filter]
    constructor
    · rintro ⟨h1, h2⟩
      refine ⟨h1, ?_⟩
      by_cases ha : cv.contourArea cnt > min_area
      · rw [if_pos ha] at h2
        exact ⟨ha, by simpa using h2⟩
      · rw [if_neg ha] at h2
        cases h2
    · rintro ⟨h1, h2, h3⟩
      exact ⟨h1, by rw [if_pos h2]; simpa using h3⟩
  constructor
  · rw [hmem]
    constructor
    · rintro ⟨h1, h2, h3⟩
      exact ⟨h1, by push_neg; exact ⟨h2, h3⟩⟩
    · rintro ⟨h1, h2⟩
      push_neg at h2
      exact ⟨h1, h2⟩
  · intro heq hmem2
    rw [hmem] at hmem2
    exact absurd hmem2.2.1 (by rw [heq]; exact lt_irrefl min_area)

/-- Witness for C3's amended theorem at a concrete input: with `cvUnit`'s
single contour of area 1000 and solidity 1, `min_area = 500` accepts it and
`min_area = 1000` (the boundary) rejects it. -/
theorem find_contours_strict_witness :
    (() ∈ find_contours cvUnit () 500) ∧
    cvUnit.contourArea () = 1000 ∧
    () ∉ find_contours cvUnit () 1000 :=
  ⟨(find_contours_strict_area_and_solidity cvUnit () 500 ()).1.mpr
      ⟨by simp [cvUnit], by norm_num [cvUnit, solidity]⟩,
    rfl,
    (find_contours_strict_area_and_solidity cvUnit () 1000 ()).2 rfl⟩

/-- C8: two-run noninterference of the color dataset.  `detect_objects`
returns the same object list whether the dataset loaded (`some df`, any
columns) or loading failed and the built-in 3-color fallback was used
(`none`): detection depends only on the fixed `hsv_ranges` constants. -/
theorem detect_objects_dataset_noninterference {Img Mask Contour : Type}
    (cv : CvOps Img Mask Contour) (df : ColorCsv) (frame : Img) (min_area : ℚ) :
    detect_objects cv (ColorDetector.init (some df)) frame min_area =
      detect_objects cv (ColorDetector.init none) frame min_area ∧
    (ColorDetector.init (some df)).hsv_ranges = default_hsv_ranges ∧
    (ColorDetector.init none).hsv_ranges = default_hsv_ranges := by
  refine ⟨?_, rfl, rfl⟩
  rw [detect_objects, detect_objects]
  rfl

/-! ### The main loop (`main.py`) -/

/-- The state owned by `RobotArmSortingSystem` that the per-frame loop
mutates. -/
structure SysState where
  robot : RobotState
  object_selector : ObjectSelector
  position_stabilizer : PositionStabilizer
deriving DecidableEq, Repr

/-- `RobotArmSortingSystem.process_frame`, given the detection list this
frame's `detect_objects` call produced: stabilize every object's pixel
position in order, collect the current ids, clean up stale stabilizer
buffers. -/
def process_frame (st : PositionStabilizer) (detected_objects : List Obj) :
    List Obj × PositionStabilizer :=
  let stepped := detected_objects.foldl
    (fun acc obj =>
      let r := acc.2.update obj.id obj.pixel_pos
      (acc.1 ++ [{ obj with pixel_pos := r.2 }], r.1))
    ([], st)
  let current_ids := detected_objects.map (fun obj => obj.id)
  (stepped.1, stepped.2.cleanup current_ids)

/-- The decoded keyboard commands of `handle_keyboard_input` (`digit n`
stands for the keys '1'..'6'; any other byte is `other`). -/
inductive Key where
  | q
  | c
  | plus
  | minus
  | space
  | f
  | r
  | g
  | b
  | digit (n : Nat)
  | other
deriving DecidableEq, Repr

/-- `RobotArmSortingSystem.handle_keyboard_input`: returns the
continue-running flag and the updated selector and robot states. -/
def handle_keyboard_input (now : Nat) (key : Key) (objects : List Obj)
    (sel : ObjectSelector) (robot : RobotState) : Bool × ObjectSelector × RobotState :=
  match key with
  | .q => (false, sel, robot)
  | .c => (true, sel.clear_selection, robot)
  | .plus => (true, { sel with tolerance_radius := min 100 (sel.tolerance_radius + 5) }, robot)
  | .minus => (true, { sel with tolerance_radius := max 10 (sel.tolerance_radius - 5) }, robot)
  | .space =>
    if !robot.is_moving then
      if sel.is_object_selected then
        match sel.selected_object with
        | some obj =>
          (true, sel.clear_selection, start_mission now obj.robot_pos obj.color robot)
        | none => (true, sel, robot)
      else (true, sel, robot)
    else (true, sel, robot)
  | .f =>
    if !robot.is_moving then
      (true, sel.clear_selection, start_all_objects_batch now objects robot)
    else (true, sel, robot)
  | .r =>
    if !robot.is_moving then
      (true, sel.clear_selection, start_color_batch_pick now objects .red robot)
    else (true, sel, robot)
  | .g =>
    if !robot.is_moving then
      (true, sel.clear_selection, start_color_batch_pick now objects .green robot)
    else (true, sel, robot)
  | .b =>
    if !robot.is_moving then
      (true, sel.clear_selection, start_color_batch_pick now objects .blue robot)
    else (true, sel, robot)
  | .digit n =>
    if 1 ≤ n ∧ n ≤ 6 ∧ !robot.is_moving then
      if n - 1 < objects.length then
        match objects.get? (n - 1) with
        | some obj => (true, (sel.select_object obj).1, robot)
        | none => (true, sel, robot)
      else (true, sel, robot)
    else (true, sel, robot)
  | .other => (true, sel, robot)

/-- The external inputs of one iteration of `run`: this frame's detection
list (the output of the `detect_objects` call), the pressed key, and the
clock. -/
structure FrameInput where
  dets : List Obj
  key : Key
  now : Nat
deriving DecidableEq, Repr

/-- One iteration of the `while True` loop in `run` (lines 417-468 of
`main.py`), in source order: `process_frame` (segmentation then
stabilization), `update_mission`, the selection-update block (clear while
moving, else `update_selection`), rendering (external, no core state), and
finally `handle_keyboard_input`. -/
def runIteration (inp : FrameInput) (s : SysState) : SysState :=
  let pf := process_frame s.position_stabilizer inp.dets
  let objects := pf.1
  let robot1 := update_mission inp.now s.robot
  let sel1 :=
    if robot1.is_moving then s.object_selector.clear_selection
    else (s.object_selector.update_selection objects).1
  let hk := handle_keyboard_input inp.now inp.key objects sel1 robot1
  { robot := hk.2.2, object_selector := hk.2.1, position_stabilizer := pf.2 }

/-- The four core phases of a frame (plus input handling). -/
inductive Phase where
  | segmentation
  | stabilization
  | missionAdvance
  | selectionUpdate
  | inputHandling
deriving DecidableEq, Repr

/-- The intermediate state of one loop iteration: the system state plus the
`objects` local. -/
structure IterState where
  sys : SysState
  objects : List Obj
deriving DecidableEq, Repr

/-- The state transformation of each phase, as performed by the loop
body. -/
def phaseStep (inp : FrameInput) : Phase → IterState → IterState
  | .segmentation, st => { st with objects := inp.dets }
  | .stabilization, st =>
    let pf := process_frame st.sys.position_stabilizer st.objects
    { sys := { st.sys with position_stabilizer := pf.2 }, objects := pf.1 }
  | .missionAdvance, st =>
    { st with sys := { st.sys with robot := update_mission inp.now st.sys.robot } }
  | .selectionUpdate, st =>
    { st with sys := { st.sys with object_selector :=
        if st.sys.robot.is_moving then st.sys.object_selector.clear_selection
        else (st.sys.object_selector.update_selection st.objects).1 } }
  | .inputHandling, st =>
    let hk := handle_keyboard_input inp.now inp.key st.objects
      st.sys.object_selector st.sys.robot
    { st with sys := { st.sys with object_selector := hk.2.1, robot := hk.2.2 } }

/-- The order in which the loop body of `run` executes the phases. -/
def loopPhases : List Phase :=
  [.segmentation, .stabilization, .missionAdvance, .selectionUpdate, .inputHandling]

/-- `runIteration`, decomposed as the fold of `phaseStep` over the source's
phase order. -/
def runIterationPhased (inp : FrameInput) (s : SysState) : SysState :=
  (loopPhases.foldl (fun st ph => phaseStep inp ph st) { sys := s, objects := [] }).sys

/-- Modelled from the spec: the per-frame phase order §5 claims, with the
selection re-resolution before the mission advance. -/
def specClaimedPhases : List Phase :=
  [.segmentation, .stabilization, .selectionUpdate, .missionAdvance, .inputHandling]

/-- Modelled from the spec: a loop iteration that executed the phases in
the spec's claimed order. -/
def specOrderIteration (inp : FrameInput) (s : SysState) : SysState :=
  (specClaimedPhases.foldl (fun st ph => phaseStep inp ph st) { sys := s, objects := [] }).sys

/-- A robot state one tick away from completing a mission (progress 98). -/
def nearDoneRobot : RobotState :=
  runTicks (fun _ => 0) 49 (start_mission 0 (10, 20, 30) .red RobotState.init)

/-- A system state with the near-done robot and a live selection at
(100, 100). -/
def nearDoneSys : SysState :=
  { robot := nearDoneRobot, object_selector := exSel,
    position_stabilizer := { buffer_size := 5, position_buffers := [] } }

/-- A frame whose detections contain the selected object, with no key
pressed. -/
def nearDoneInput : FrameInput :=
  { dets := [exSo], key := .other, now := 0 }

set_option maxRecDepth 4000 in
/-- Counterexample to C2: the loop body advances the mission before
re-resolving the selection.  On a frame where the mission completes, the
real order (mission advance first) sees the robot Idle at selection time
and re-binds the selection, while the spec's claimed order (selection
update first) sees it Executing and clears the selection: the two orders
produce observably different states, so the claimed order is not the
program's. -/
theorem selection_before_mission_advance_counterexample :
    ¬ (loopPhases.indexOf Phase.selectionUpdate < loopPhases.indexOf Phase.missionAdvance) ∧
    runIteration nearDoneInput nearDoneSys ≠ specOrderIteration nearDoneInput nearDoneSys ∧
    (runIteration nearDoneInput nearDoneSys).object_selector.selected_object = some exSo ∧
    (specOrderIteration nearDoneInput nearDoneSys).object_selector.selected_object = none :=
  ⟨by decide, by decide, by decide, by decide⟩

/-- C2 (amended): every per-frame iteration executes segmentation, then
stabilization, then the mission advance, and only then the selection
update (followed by input handling): the mission-progress advance precedes
the frame's selection re-resolution, and the loop body is exactly the
composition of the phase steps in that order. -/
theorem run_phase_order_mission_before_selection :
    loopPhases = [.segmentation, .stabilization, .missionAdvance, .selectionUpdate,
      .inputHandling] ∧
    loopPhases.indexOf Phase.segmentation < loopPhases.indexOf Phase.stabilization ∧
    loopPhases.indexOf Phase.stabilization < loopPhases.indexOf Phase.missionAdvance ∧
    loopPhases.indexOf Phase.missionAdvance < loopPhases.indexOf Phase.selectionUpdate ∧
    ∀ (inp : FrameInput) (s : SysState), runIteration inp s = runIterationPhased inp s := by
  refine ⟨rfl, by decide, by decide, by decide, ?_⟩
  intro inp s
  rfl

/-- `handle_keyboard_input` preserves "Executing implies unselected": every
command that can leave the robot moving either leaves the selection it was
given (already cleared while moving) or clears it itself. -/
theorem handle_keyboard_preserves_unselected (now : Nat) (key : Key) (objects : List Obj)
    (sel : ObjectSelector) (robot : RobotState)
    (hinv : robot.is_moving = true → sel.selected_object = none) :
    (handle_keyboard_input now key objects sel robot).2.2.is_moving = true →
    (handle_keyboard_input now key objects sel robot).2.1.selected_object = none := by
  cases key with
  | q => exact hinv
  | c => intro _; rfl
  | plus => exact hinv
  | minus => exact hinv
  | space =>
    by_cases hm : robot.is_moving
    · simp only [handle_keyboard_input, hm, Bool.not_true, Bool.false_eq_true, if_false]
      exact fun _ => hinv hm
    · simp only [Bool.not_eq_true] at hm
      simp only [handle_keyboard_input, hm, Bool.not_false, if_true]
      by_cases hs : sel.is_object_selected
      · rw [if_pos hs]
        cases hsel : sel.selected_object with
        | none => intro h; rw [hm] at h; cases h
        | some obj => intro _; rfl
      · rw [if_neg hs]
        intro h
        rw [hm] at h
        cases h
  | f =>
    by_cases hm : robot.is_moving
    · simp only [handle_keyboard_input, hm, Bool.not_true, Bool.false_eq_true, if_false]
      exact fun _ => hinv hm
    · simp only [Bool.not_eq_true] at hm
      simp only [handle_keyboard_input, hm, Bool.not_false, if_true]
      intro _; rfl
  | r =>
    by_cases hm : robot.is_moving
    · simp only [handle_keyboard_input, hm, Bool.not_true, Bool.false_eq_true, if_false]
      exact fun _ => hinv hm
    · simp only [Bool.not_eq_true] at hm
      simp only [handle_keyboard_input, hm, Bool.not_false, if_true]
      intro _; rfl
  | g =>
    by_cases hm : robot.is_moving
    · simp only [handle_keyboard_input, hm, Bool.not_true, Bool.false_eq_true, if_false]
      exact fun _ => hinv hm
    · simp only [Bool.not_eq_true] at hm
      simp only [handle_keyboard_input, hm, Bool.not_false, if_true]
      intro _; rfl
  | b =>
    by_cases hm : robot.is_moving
    · simp only [handle_keyboard_input, hm, Bool.not_true, Bool.false_eq_true, if_false]
      exact fun _ => hinv hm
    · simp only [Bool.not_eq_true] at hm
      simp only [handle_keyboard_input, hm, Bool.not_false, if_true]
      intro _; rfl
  | digit n =>
    by_cases hg : 1 ≤ n ∧ n ≤ 6 ∧ !robot.is_moving
    · simp only [handle_keyboard_input, if_pos hg]
      have hm : robot.is_moving = false := by simpa using hg.2.2
      by_cases hlt : n - 1 < objects.length
      · rw [if_pos hlt]
        cases hget : objects.get? (n - 1) with
        | none => intro h; rw [hm] at h; cases h
        | some obj => intro h; rw [hm] at h; cases h
      · rw [if_neg hlt]
        intro h
        rw [hm] at h
        cases h
    · simp only [handle_keyboard_input, if_neg hg]
      exact hinv
  | other => exact hinv

/-- C9: after every iteration of the per-frame loop, a moving robot implies
an empty selection: the loop clears the selection on every frame while the
robot is executing, and every command that starts a mission or batch also
clears it, so "Executing and Selected" is unreachable at frame
boundaries. -/
theorem executing_implies_unselected (inp : FrameInput) (s : SysState) :
    (runIteration inp s).robot.is_moving = true →
    (runIteration inp s).object_selector.selected_object = none := by
  intro hmov
  refine handle_keyboard_preserves_unselected inp.now inp.key
    (process_frame s.position_stabilizer inp.dets).1 _ _ ?_ hmov
  intro h1
  show (if (update_mission inp.now s.robot).is_moving then s.object_selector.clear_selection
    else (s.object_selector.update_selection
      (process_frame s.position_stabilizer inp.dets).1).1).selected_object = none
  rw [if_pos h1]
  rfl

/-- The system state after one iteration in which SPACE is pressed with a
live selection and an idle robot. -/
def spaceWitnessState : SysState :=
  runIteration { dets := [exSo], key := .space, now := 0 }
    { robot := RobotState.init, object_selector := exSel,
      position_stabilizer := { buffer_size := 5, position_buffers := [] } }

/-- Witness for C9 at a concrete input: pressing SPACE with a selection and
an idle robot starts a mission; after the iteration the robot is moving and
nothing is selected. -/
theorem executing_implies_unselected_witness :
    spaceWitnessState.robot.is_moving = true ∧
    spaceWitnessState.object_selector.selected_object = none :=
  ⟨by decide,
    executing_implies_unselected { dets := [exSo], key := .space, now := 0 }
      { robot := RobotState.init, object_selector := exSel,
        position_stabilizer := { buffer_size := 5, position_buffers := [] } } (by decide)⟩

end PickPlace
